import Mathlib

/-!
Verification of the node-pnglib PNG writer (src/pnglib.js) against its
natural-language specification.

The single source file `src/pnglib.js` is shallowly embedded below.  Buffers
(`Buffer`, a Node `Uint8Array` view) are modelled as `List Nat`; a store
`buf[i] = v` reduces the value mod 256 and is a no-op when `i` is out of
range, exactly as a `Uint8Array` store behaves, and a read `buf[i]` yields
`Option Nat` (`none` models the JavaScript `undefined` an out-of-range read
produces).  The collaborators that live outside the repository
(src/buf.js constants, src/utils.js scalar writers and CRC-32, the
src/rgba.js color-name parser) are modelled from the spec where a claim
needs them; each such definition says so in its doc comment.
-/

namespace PNGlib

/-- Red, green, blue, alpha components of a resolved color. -/
abbrev RGBA := Nat × Nat × Nat × Nat

/-! ## Layout planner (constructor lines 8–31)

The constructor stores `width`, `height`, `depth` (`d || 8`) and computes all
chunk offsets and sizes from them; they are never reassigned, so we keep the
three parameters in a `Layout` record and the derived quantities as
functions of it. -/

structure Layout where
  width : Nat
  height : Nat
  depth : Nat
deriving DecidableEq

/-- Line 15: `this.pix_size = this.height * (this.width + 1)`. -/
def Layout.pix_size (L : Layout) : Nat := L.height * (L.width + 1)

/-- Line 18: `this.data_size = 2 + this.pix_size + 5 * Math.floor((0xfffe + this.pix_size) / 0xffff) + 4`. -/
def Layout.data_size (L : Layout) : Nat :=
  2 + L.pix_size + 5 * ((0xfffe + L.pix_size) / 0xffff) + 4

/-- Line 21. -/
def Layout.ihdr_offs (_L : Layout) : Nat := 0
/-- Line 22. -/
def Layout.ihdr_size (_L : Layout) : Nat := 4 + 4 + 13 + 4
/-- Line 23. -/
def Layout.plte_offs (L : Layout) : Nat := L.ihdr_offs + L.ihdr_size
/-- Line 24. -/
def Layout.plte_size (L : Layout) : Nat := 4 + 4 + 3 * L.depth + 4
/-- Line 25. -/
def Layout.trns_offs (L : Layout) : Nat := L.plte_offs + L.plte_size
/-- Line 26. -/
def Layout.trns_size (L : Layout) : Nat := 4 + 4 + L.depth + 4
/-- Line 27. -/
def Layout.idat_offs (L : Layout) : Nat := L.trns_offs + L.trns_size
/-- Line 28. -/
def Layout.idat_size (L : Layout) : Nat := 4 + 4 + L.data_size + 4
/-- Line 29. -/
def Layout.iend_offs (L : Layout) : Nat := L.idat_offs + L.idat_size
/-- Line 30. -/
def Layout.iend_size (_L : Layout) : Nat := 4 + 4 + 4
/-- Line 31: total PNG size without the 8-byte signature. -/
def Layout.buffer_size (L : Layout) : Nat := L.iend_offs + L.iend_size

/-! ## Buffer primitives

Modelled from the spec: src/utils.js ("low-level scalar writers: big-endian
32-bit/16-bit write, little-endian 16-bit write, raw byte-sequence write")
is not part of the repository. -/

/-- A `Uint8Array` store: value reduced mod 256, out-of-range index ignored
(`List.set` past the end is the identity). -/
def bufSet (b : List Nat) (i v : Nat) : List Nat := b.set i (v % 256)

/-- Modelled from the spec: `utils.write4`, a big-endian 32-bit write. -/
def write4 (b : List Nat) (o v : Nat) : List Nat :=
  bufSet (bufSet (bufSet (bufSet b o (v / 2 ^ 24)) (o + 1) (v / 2 ^ 16)) (o + 2) (v / 2 ^ 8)) (o + 3) v

/-- Modelled from the spec: `utils.write2`, a big-endian 16-bit write. -/
def write2 (b : List Nat) (o v : Nat) : List Nat :=
  bufSet (bufSet b o (v / 2 ^ 8)) (o + 1) v

/-- Modelled from the spec: `utils.write2lsb`, a little-endian 16-bit write.
The value is an `Int` because the block-header loop passes `~size` (and, for
an oversized final block, a negative `size`); JavaScript bitwise semantics
store the value's low 16 bits in two's complement, i.e. `v.emod 65536`.
The source's `write2lsb` returns `offs + 2`, which the header loop uses to
chain writes; the model passes the offsets explicitly. -/
def write2lsb (b : List Nat) (o : Nat) (v : Int) : List Nat :=
  bufSet (bufSet b o (v.emod 65536).toNat) (o + 1) ((v.emod 65536).toNat / 256)

/-- Modelled from the spec: `utils.writeb`, a raw byte-sequence write
(the source returns the advanced offset; the model passes offsets explicitly). -/
def writeb (b : List Nat) (o : Nat) : List Nat → List Nat
  | [] => b
  | v :: vs => writeb (bufSet b o v) (o + 1) vs

/-! ## Byte constants

Modelled from the spec: src/buf.js is not in the repository.  `PNG_HEAD` is
the fixed 8-byte PNG signature, the chunk tags are the four ASCII type
bytes, `CODE_X08X03` the "fixed bit-depth/color-type byte pair for 8-bit
indexed color", `CODE_NUL`/`CODE_SOH` single bytes 0 and 1 (the stored-block
flag: "1 = final block, 0 = more follow"), and `PNG_DEFLATE_HEADER` the
2-byte zlib stream header. -/

def PNG_HEAD : List Nat := [0x89, 0x50, 0x4e, 0x47, 0x0d, 0x0a, 0x1a, 0x0a]
def PNG_IHDR : List Nat := [0x49, 0x48, 0x44, 0x52]
def PNG_PLTE : List Nat := [0x50, 0x4c, 0x54, 0x45]
def PNG_tRNS : List Nat := [0x74, 0x52, 0x4e, 0x53]
def PNG_IDAT : List Nat := [0x49, 0x44, 0x41, 0x54]
def PNG_IEND : List Nat := [0x49, 0x45, 0x4e, 0x44]
def CODE_X08X03 : List Nat := [8, 3]
def CODE_NUL : Nat := 0
def CODE_SOH : Nat := 1
def PNG_DEFLATE_HEADER : Nat := 0x7801

/-! ## Stored-block headers (constructor lines 64–77)

```
for (let i = 0; (i << 16) - 1 < this.pix_size; i++) {
  let size, bits;
  if (i + 0xffff < this.pix_size) { size = 0xffff; bits = BUF.CODE_NUL; }
  else { size = this.pix_size - (i << 16) - i; bits = BUF.CODE_SOH; }
  let offs = this.idat_offs + 8 + 2 + (i << 16) + (i << 2);
  offs = utils.writeb(this.buffer, offs, bits);
  offs = utils.write2lsb(this.buffer, offs, size);
  utils.write2lsb(this.buffer, offs, ~size);
}
```
The loop guard `(i << 16) - 1 < pix_size` holds exactly for
`i * 65536 ≤ pix_size`, i.e. for `i < pix_size / 65536 + 1`
(see `numHeaders_iterations`). -/

/-- Number of iterations of the block-header loop. -/
def numHeaders (p : Nat) : Nat := p / 0x10000 + 1

/-- The flag byte the loop writes for block `i` given `pix_size = p`
(line 68/71: `CODE_NUL` when more blocks follow, `CODE_SOH` on the branch
meant for the final block). -/
def blockBits (p i : Nat) : Nat := if i + 0xffff < p then CODE_NUL else CODE_SOH

/-- The length value the loop computes for block `i`
(line 67/70: `0xffff`, or `pix_size - (i << 16) - i` on the final branch;
an `Int` because the subtraction can go negative in JavaScript). -/
def blockSize (p i : Nat) : Int := if i + 0xffff < p then 0xffff else (p : Int) - (i <<< 16 : Nat) - i

/-- Line 73: `offs = this.idat_offs + 8 + 2 + (i << 16) + (i << 2)`. -/
def headerOffs (L : Layout) (i : Nat) : Nat := L.idat_offs + 8 + 2 + (i <<< 16) + (i <<< 2)

/-- One iteration of the header loop: flag byte, little-endian length,
little-endian `~size` (JavaScript `~size = -size - 1`). -/
def writeHeader (L : Layout) (b : List Nat) (i : Nat) : List Nat :=
  let offs := headerOffs L i
  let b := writeb b offs [blockBits L.pix_size i]
  let b := write2lsb b (offs + 1) (blockSize L.pix_size i)
  write2lsb b (offs + 3) (-(blockSize L.pix_size i) - 1)

/-- The whole header loop. -/
def writeHeaders (L : Layout) (b : List Nat) : List Nat :=
  (List.range (numHeaders L.pix_size)).foldl (writeHeader L) b

/-- The loop guard `(i << 16) - 1 < pix_size` (JavaScript arithmetic, so the
subtraction is over `Int`) holds exactly for the iterations the model runs. -/
theorem numHeaders_iterations (p i : Nat) :
    ((i <<< 16 : Nat) : Int) - 1 < (p : Int) ↔ i < numHeaders p := by
  have h : ((i <<< 16 : Nat) : Int) = (65536 : Int) * i := by
    simp [Nat.shiftLeft_eq]; ring
  rw [h, numHeaders]
  omega

/-! ## Constructor buffer initialization (lines 33–77)

`BUF.alloc` returns a zero-filled buffer.  `this.raw` holds the 8-byte PNG
signature followed by the chunk area; `this.buffer` is the view of the chunk
area (line 34), and every later write goes through that view, so we model
the chunk area as the buffer and `raw` as `PNG_HEAD ++ buffer`
(line 58 writes the signature into `raw` once). -/

def initBuffer (L : Layout) : List Nat :=
  let b := List.replicate L.buffer_size 0
  let b := write4 b L.ihdr_offs (L.ihdr_size - 12)
  let b := writeb b (L.ihdr_offs + 4) PNG_IHDR
  let b := write4 b (L.ihdr_offs + 4 * 2) L.width
  let b := write4 b (L.ihdr_offs + 4 * 3) L.height
  let b := writeb b (L.ihdr_offs + 4 * 4) CODE_X08X03
  let b := write4 b L.plte_offs (L.plte_size - 12)
  let b := writeb b (L.plte_offs + 4) PNG_PLTE
  let b := write4 b L.trns_offs (L.trns_size - 12)
  let b := writeb b (L.trns_offs + 4) PNG_tRNS
  let b := write4 b L.idat_offs (L.idat_size - 12)
  let b := writeb b (L.idat_offs + 4) PNG_IDAT
  let b := write4 b L.iend_offs (L.iend_size - 12)
  let b := writeb b (L.iend_offs + 4) PNG_IEND
  let b := write2 b (L.idat_offs + 8) PNG_DEFLATE_HEADER
  writeHeaders L b

/-! ## Mutable state

`this.width/height/depth` are never reassigned, so the state keeps the three
parameters (the derived layout is recomputed by `PNGState.layout`, which the
source caches as fields).  `this.palette` is a `Map` used only through
`has`/`get`/`set` with dedup, i.e. an insertion-ordered association list;
`this.pindex` is the next free palette slot. -/

structure PNGState where
  width : Nat
  height : Nat
  depth : Nat
  buffer : List Nat
  palette : List (Nat × Nat)
  pindex : Nat
deriving DecidableEq

def PNGState.layout (s : PNGState) : Layout := ⟨s.width, s.height, s.depth⟩

/-- `Map.has`/`Map.get` on the association list. -/
def plookup : List (Nat × Nat) → Nat → Option Nat
  | [], _ => none
  | (k, v) :: rest, key => if k = key then some v else plookup rest key

/-- Line 106: `const color = (((((alpha << 8) | red) << 8) | green) << 8) | blue`.
The components of a resolved color are below 256, so the Nat shift/or
computes the same 32-bit key as the JavaScript expression. -/
def packColor (c : RGBA) : Nat :=
  ((((c.2.2.2 <<< 8) ||| c.1) <<< 8 ||| c.2.1) <<< 8) ||| c.2.2.1

/-- Lines 106–123 of `color`, after the color has been resolved to RGBA
components (the string branch, lines 92–101, is `colorNamed` below, and the
alpha default of line 103 is applied by the caller model).  On a full
palette the source warns on the console (an I/O effect outside this
embedding) and returns `BUF.CODE_NUL`, a one-byte buffer holding 0, which
setPixel stores as the byte 0. -/
def colorStep (c : RGBA) (s : PNGState) : Nat × PNGState :=
  let key := packColor c
  match plookup s.palette key with
  | some i => (i, s)
  | none =>
    if s.pindex = s.depth then
      (CODE_NUL, s)
    else
      let ndx := s.layout.plte_offs + 8 + 3 * s.pindex
      let b := bufSet s.buffer (ndx + 0) c.1
      let b := bufSet b (ndx + 1) c.2.1
      let b := bufSet b (ndx + 2) c.2.2.1
      let b := bufSet b (s.layout.trns_offs + 8 + s.pindex) c.2.2.2
      (s.pindex,
       { s with buffer := b, palette := s.palette ++ [(key, s.pindex)], pindex := s.pindex + 1 })

/-- Lines 92–101: the textual branch of `color`.  The external
color-name parser (src/rgba.js, out of scope per the spec) is represented
by its result: `none` is the unrecognized-color indication.  A JavaScript
`throw` leaves `this` untouched, so the result pairs an `Except` with the
state after the call. -/
def colorNamed (parsed : Option RGBA) (s : PNGState) : Except String Nat × PNGState :=
  match parsed with
  | none => (Except.error "invalid color", s)
  | some c =>
    let (i, s') := colorStep c s
    (Except.ok i, s')

/-- Lines 84–88:
```
index(x, y) {
  let i = y * (this.width + 1) + x + 1;
  let j = this.idat_offs + 8 + 2 + 5 * Math.floor((i / 0xffff) + 1) + i;
  return j;
}
```
(`Math.floor(i / 65535 + 1) = i / 65535 + 1` in Nat division). -/
def pixelIndex (L : Layout) (x y : Nat) : Nat :=
  let i := y * (L.width + 1) + x + 1
  L.idat_offs + 8 + 2 + 5 * (i / 0xffff + 1) + i

/-- Lines 126–129:
```
setPixel(x, y, rgba) {
  if (x < 0 || y < 0 || x >= this.width || y >= this.height) return;
  this.buffer[this.index(Math.floor(x), Math.floor(y))] = this.color(rgba);
}
```
with the color already resolved to RGBA components. -/
def setPixel (x y : Int) (c : RGBA) (s : PNGState) : PNGState :=
  if x < 0 ∨ y < 0 ∨ (s.width : Int) ≤ x ∨ (s.height : Int) ≤ y then s
  else
    let (i, s') := colorStep c s
    { s' with buffer := bufSet s'.buffer (pixelIndex s.layout x.toNat y.toNat) i }

/-- `setPixel` when the color argument is a textual name: the bounds guard
runs first; an unparseable name then throws out of `this.color` before the
pixel byte is stored. -/
def setPixelNamed (x y : Int) (parsed : Option RGBA) (s : PNGState) :
    Except String Unit × PNGState :=
  if x < 0 ∨ y < 0 ∨ (s.width : Int) ≤ x ∨ (s.height : Int) ≤ y then (Except.ok (), s)
  else
    match colorNamed parsed s with
    | (Except.error e, s') => (Except.error e, s')
    | (Except.ok i, s') =>
      (Except.ok (), { s' with buffer := bufSet s'.buffer (pixelIndex s.layout x.toNat y.toNat) i })

/-- Lines 8–81: the constructor.  `bg` is the optional background color,
already resolved to RGBA components (a falsy/absent `bg` registers the
fully transparent black `(0, 0, 0, 0)`, lines 79–80); `depth = d || 8`
(line 11). -/
def initState (w h d : Nat) (bg : Option RGBA) : PNGState :=
  let L : Layout := ⟨w, h, if d = 0 then 8 else d⟩
  let s : PNGState := ⟨w, h, L.depth, initBuffer L, [], 0⟩
  (colorStep (bg.getD (0, 0, 0, 0)) s).2

/-! ## Finalizer (`deflate`, lines 142–177) -/

def BASE : Nat := 65521
def NMAX : Nat := 5552

/-- Line 151/155: the address the Adler-32 walk reads for logical position
`i`: `baseOffset * Math.floor(_i3 / 0xffff + 1) + _i3` with
`baseOffset = this.idat_offs + 8 + 2 + 5`. -/
def adlerAddr (L : Layout) (i : Nat) : Nat :=
  (L.idat_offs + 8 + 2 + 5) * (i / 0xffff + 1) + i

/-- The Adler accumulator.  `acc = none` models the JavaScript `NaN` that
`s1 += undefined` produces after an out-of-range read; `n` is the
reduction countdown. -/
structure AdlerAcc where
  acc : Option (Nat × Nat)
  n : Nat
deriving DecidableEq

/-- Lines 154–161: one step of the walk at logical position `i`
(`s1 += byte; s2 += s1`, then the `n`-countdown reduction mod `BASE`). -/
def adlerStep (b : List Nat) (L : Layout) (i : Nat) (a : AdlerAcc) : AdlerAcc :=
  let acc' :=
    match a.acc, b[adlerAddr L i]? with
    | some (s1, s2), some v => some (s1 + v, s2 + (s1 + v))
    | _, _ => none
  if a.n - 1 = 0 then
    ⟨acc'.map (fun q => (q.1 % BASE, q.2 % BASE)), NMAX⟩
  else
    ⟨acc', a.n - 1⟩

/-- Lines 147–163: the nested walk, `y` over the rows and `x` from `-1`
to `width - 1` (so `k = x + 1` ranges over `0 .. width`), starting from
`s1 = 1, s2 = 0, n = NMAX`. -/
def adlerLoop (L : Layout) (b : List Nat) : AdlerAcc :=
  (List.range L.height).foldl
    (fun a y =>
      (List.range (L.width + 1)).foldl
        (fun a k => adlerStep b L (y * (L.width + 1) + k) a) a)
    ⟨some (1, 0), NMAX⟩

/-- Lines 164–167: the final reductions and `(s2 << 16) | s1`.  When the
accumulators are `NaN` the JavaScript bitwise operations evaluate to 0. -/
def adlerValue (L : Layout) (b : List Nat) : Nat :=
  match (adlerLoop L b).acc with
  | none => 0
  | some (s1, s2) => ((s2 % BASE) <<< 16) ||| (s1 % BASE)

/-- Lines 166–167: `utils.write4(this.buffer, this.idat_offs + this.idat_size - 8, (s2 << 16) | s1)`. -/
def writeAdler (L : Layout) (b : List Nat) : List Nat :=
  write4 b (L.idat_offs + L.idat_size - 8) (adlerValue L b)

/-! CRC-32, modelled from the spec: "a CRC-32 function (standard
polynomial, table-based) that, given a buffer region covering a chunk's
4-byte type tag plus its payload, computes and appends the 4-byte checksum
immediately after that region" (src/utils.js is not in the repository).
The bitwise form below computes the same function as the table-based one. -/

def crcShift (c : Nat) : Nat := if c % 2 = 1 then 0xedb88320 ^^^ (c / 2) else c / 2

def crcByte (c v : Nat) : Nat :=
  crcShift (crcShift (crcShift (crcShift (crcShift (crcShift (crcShift (crcShift (c ^^^ v % 256))))))))

def crcValue (bytes : List Nat) : Nat :=
  (bytes.foldl crcByte 0xffffffff) ^^^ 0xffffffff

/-- The bytes of `b` at `[start, start + len)` (all reads in range where
this is used). -/
def region (b : List Nat) (start len : Nat) : List Nat :=
  (List.range len).map (fun k => b[start + k]?.getD 0)

/-- `utils.crc32(buffer, offs, size)`: checksum of the type tag plus payload
`[offs + 4, offs + size - 4)`, appended at `offs + size - 4`. -/
def crc32 (b : List Nat) (offs size : Nat) : List Nat :=
  write4 b (offs + size - 4) (crcValue (region b (offs + 4) (size - 8)))

/-- Lines 142–177: `deflate` writes the Adler-32 trailer, then the five
chunk CRCs, in place. -/
def deflateBuf (L : Layout) (b : List Nat) : List Nat :=
  let b := writeAdler L b
  let b := crc32 b L.ihdr_offs L.ihdr_size
  let b := crc32 b L.plte_offs L.plte_size
  let b := crc32 b L.trns_offs L.trns_size
  let b := crc32 b L.idat_offs L.idat_size
  crc32 b L.iend_offs L.iend_size

def deflateState (s : PNGState) : PNGState :=
  { s with buffer := deflateBuf s.layout s.buffer }

/-- `getBuffer()` (line 137): runs `deflate` and returns `this.raw`, the
signature followed by the chunk area; paired with the mutated state. -/
def getBuffer (s : PNGState) : List Nat × PNGState :=
  let s' := deflateState s
  (PNG_HEAD ++ s'.buffer, s')

/-! ## Reachable states

Construction followed by any sequence of the public mutation/output
entry points. -/

inductive Reachable (w h d : Nat) (bg : Option RGBA) : PNGState → Prop where
  | init : Reachable w h d bg (initState w h d bg)
  | color (c : RGBA) {s : PNGState} :
      Reachable w h d bg s → Reachable w h d bg (colorStep c s).2
  | colorName (parsed : Option RGBA) {s : PNGState} :
      Reachable w h d bg s → Reachable w h d bg (colorNamed parsed s).2
  | pixel (x y : Int) (c : RGBA) {s : PNGState} :
      Reachable w h d bg s → Reachable w h d bg (setPixel x y c s)
  | pixelName (x y : Int) (parsed : Option RGBA) {s : PNGState} :
      Reachable w h d bg s → Reachable w h d bg (setPixelNamed x y parsed s).2
  | output {s : PNGState} :
      Reachable w h d bg s → Reachable w h d bg (deflateState s)

/-! ## Buffer lemmas -/

theorem length_bufSet (b : List Nat) (i v : Nat) : (bufSet b i v).length = b.length :=
  List.length_set ..

theorem bufSet_getElem?_ne (b : List Nat) (v : Nat) {i j : Nat} (h : i ≠ j) :
    (bufSet b i v)[j]? = b[j]? :=
  List.getElem?_set_ne h

theorem bufSet_getElem?_self (b : List Nat) (v : Nat) {i : Nat} (h : i < b.length) :
    (bufSet b i v)[i]? = some (v % 256) := by
  rw [bufSet, List.getElem?_set_self]; simp [h]

theorem set_of_getElem? {b : List Nat} {i v : Nat} (h : b[i]? = some v) : b.set i v = b := by
  apply List.ext_getElem?
  intro n
  rcases eq_or_ne i n with rfl | hne
  · rw [List.getElem?_set_self (by exact (List.getElem?_eq_some_iff.mp h).1)]
    exact h.symm
  · exact List.getElem?_set_ne hne

theorem bufSet_of_getElem? {b : List Nat} {i v : Nat} (h : b[i]? = some (v % 256)) :
    bufSet b i v = b :=
  set_of_getElem? h

theorem length_write4 (b : List Nat) (o v : Nat) : (write4 b o v).length = b.length := by
  simp [write4, length_bufSet]

theorem write4_getElem?_ne (b : List Nat) (o v : Nat) {j : Nat} (h : j < o ∨ o + 4 ≤ j) :
    (write4 b o v)[j]? = b[j]? := by
  rw [write4, bufSet_getElem?_ne _ _ (by omega), bufSet_getElem?_ne _ _ (by omega),
    bufSet_getElem?_ne _ _ (by omega), bufSet_getElem?_ne _ _ (by omega)]

/-- The four big-endian bytes a `write4` stores. -/
theorem write4_getElem?_eq (b : List Nat) (o v : Nat) (h : o + 4 ≤ b.length) :
    (write4 b o v)[o]? = some (v / 2 ^ 24 % 256) ∧
    (write4 b o v)[o + 1]? = some (v / 2 ^ 16 % 256) ∧
    (write4 b o v)[o + 2]? = some (v / 2 ^ 8 % 256) ∧
    (write4 b o v)[o + 3]? = some (v % 256) := by
  refine ⟨?_, ?_, ?_, ?_⟩ <;> rw [write4]
  · rw [bufSet_getElem?_ne _ _ (by omega), bufSet_getElem?_ne _ _ (by omega),
      bufSet_getElem?_ne _ _ (by omega), bufSet_getElem?_self _ _ (by omega)]
  · rw [bufSet_getElem?_ne _ _ (by omega), bufSet_getElem?_ne _ _ (by omega),
      bufSet_getElem?_self _ _ (by simp [length_bufSet]; omega)]
  · rw [bufSet_getElem?_ne _ _ (by omega),
      bufSet_getElem?_self _ _ (by simp [length_bufSet]; omega)]
  · rw [bufSet_getElem?_self _ _ (by simp [length_bufSet]; omega)]

/-- A `write4` that stores the bytes already present is the identity. -/
theorem write4_of_getElem? {b : List Nat} {o v : Nat}
    (h0 : b[o]? = some (v / 2 ^ 24 % 256)) (h1 : b[o + 1]? = some (v / 2 ^ 16 % 256))
    (h2 : b[o + 2]? = some (v / 2 ^ 8 % 256)) (h3 : b[o + 3]? = some (v % 256)) :
    write4 b o v = b := by
  rw [write4, bufSet_of_getElem? h0]
  rw [bufSet_of_getElem? h1, bufSet_of_getElem? h2, bufSet_of_getElem? h3]

theorem length_write2 (b : List Nat) (o v : Nat) : (write2 b o v).length = b.length := by
  simp [write2, length_bufSet]

theorem length_write2lsb (b : List Nat) (o : Nat) (v : Int) :
    (write2lsb b o v).length = b.length := by
  simp [write2lsb, length_bufSet]

theorem length_writeb (l : List Nat) (b : List Nat) (o : Nat) :
    (writeb b o l).length = b.length := by
  induction l generalizing b o with
  | nil => rfl
  | cons v vs ih => rw [writeb, ih, length_bufSet]

theorem length_writeHeader (L : Layout) (b : List Nat) (i : Nat) :
    (writeHeader L b i).length = b.length := by
  simp [writeHeader, length_write2lsb, length_writeb]

theorem length_writeHeaders (L : Layout) (b : List Nat) :
    (writeHeaders L b).length = b.length := by
  rw [writeHeaders]
  generalize List.range (numHeaders L.pix_size) = l
  induction l generalizing b with
  | nil => rfl
  | cons i is ih => rw [List.foldl_cons, ih, length_writeHeader]

theorem length_initBuffer (L : Layout) : (initBuffer L).length = L.buffer_size := by
  simp [initBuffer, length_writeHeaders, length_write2, length_writeb, length_write4,
    List.length_replicate]

/-! ## State-level length lemmas -/

theorem length_colorStep (c : RGBA) (s : PNGState) :
    (colorStep c s).2.buffer.length = s.buffer.length := by
  rw [colorStep]
  cases plookup s.palette (packColor c) with
  | some i => rfl
  | none =>
    by_cases h : s.pindex = s.depth
    · simp [h]
    · simp [h, length_bufSet]

theorem length_deflateBuf (L : Layout) (b : List Nat) :
    (deflateBuf L b).length = b.length := by
  simp [deflateBuf, crc32, writeAdler, length_write4]

theorem length_initStateBuffer (w h d : Nat) (bg : Option RGBA) :
    (initState w h d bg).buffer.length = (Layout.mk w h (if d = 0 then 8 else d)).buffer_size := by
  rw [initState]
  rw [length_colorStep]
  exact length_initBuffer _

/-! ## C6 — out-of-range `setPixel` is a no-op -/

/-- C6: for every coordinate pair with `x < 0`, `y < 0`, `x >= width` or
`y >= height` and every color argument, `setPixel` raises no error and
leaves the buffer and the palette state (mapping and next-index counter)
entirely unchanged: the resulting state is the input state. -/
theorem setPixel_out_of_bounds (s : PNGState) (x y : Int) (c : RGBA)
    (h : x < 0 ∨ y < 0 ∨ (s.width : Int) ≤ x ∨ (s.height : Int) ≤ y) :
    setPixel x y c s = s := by
  rw [setPixel, if_pos h]

/-- Witness for C6: `setPixel(-1, 0, c)` and `setPixel(width, 0, c)` on a
freshly constructed 2×2 image change nothing. -/
theorem setPixel_out_of_bounds_witness :
    setPixel (-1) 0 (9, 9, 9, 255) (initState 2 2 2 none) = initState 2 2 2 none ∧
    setPixel 2 0 (9, 9, 9, 255) (initState 2 2 2 none) = initState 2 2 2 none :=
  ⟨setPixel_out_of_bounds _ _ _ _ (Or.inl (by decide)),
   setPixel_out_of_bounds _ _ _ _ (Or.inr (Or.inr (Or.inl (by decide))))⟩

/-! ## C8 — re-registering a color is idempotent -/

/-- Looking a key up after appending a binding for a fresh key. -/
theorem plookup_append (pal : List (Nat × Nat)) (k v : Nat)
    (h : plookup pal k = none) : plookup (pal ++ [(k, v)]) k = some v := by
  induction pal with
  | nil => simp [plookup]
  | cons kv rest ih =>
    rw [List.cons_append, plookup]
    rw [plookup] at h
    by_cases hk : kv.1 = k
    · simp [hk] at h
    · simp only [hk, if_false] at h ⊢
      exact ih h

/-- Case of `colorStep`: the key is already in the palette (line 123 only). -/
theorem colorStep_found {s : PNGState} {c : RGBA} {i : Nat}
    (h : plookup s.palette (packColor c) = some i) : colorStep c s = (i, s) := by
  rw [colorStep]; simp only [h]

/-- Case of `colorStep`: fresh key, palette full (lines 109–112). -/
theorem colorStep_full {s : PNGState} {c : RGBA}
    (h : plookup s.palette (packColor c) = none) (h2 : s.pindex = s.depth) :
    colorStep c s = (CODE_NUL, s) := by
  rw [colorStep]; simp only [h, h2, if_true]

/-- Case of `colorStep`: fresh key registered (lines 114–123). -/
theorem colorStep_register {s : PNGState} {c : RGBA}
    (h : plookup s.palette (packColor c) = none) (h2 : ¬s.pindex = s.depth) :
    colorStep c s =
      (s.pindex,
       { s with
         buffer :=
           bufSet
             (bufSet
               (bufSet (bufSet s.buffer (s.layout.plte_offs + 8 + 3 * s.pindex + 0) c.1)
                 (s.layout.plte_offs + 8 + 3 * s.pindex + 1) c.2.1)
               (s.layout.plte_offs + 8 + 3 * s.pindex + 2) c.2.2.1)
             (s.layout.trns_offs + 8 + s.pindex) c.2.2.2,
         palette := s.palette ++ [(packColor c, s.pindex)],
         pindex := s.pindex + 1 }) := by
  rw [colorStep]; simp only [h, h2, if_false]

/-- C8: `color` is idempotent.  If the color's key is already registered
(with index `i`), the call returns `i` and leaves the whole state — palette
mapping, next-index counter, and the buffer holding the PLTE/tRNS chunk
bytes — unchanged; and unconditionally a second call with the same color
returns the same index as the first and leaves the first call's state
unchanged. -/
theorem color_idempotent (s : PNGState) (c : RGBA) :
    (∀ i, plookup s.palette (packColor c) = some i → colorStep c s = (i, s)) ∧
    colorStep c (colorStep c s).2 = colorStep c s := by
  refine ⟨fun i h => colorStep_found h, ?_⟩
  rcases hl : plookup s.palette (packColor c) with _ | i
  · by_cases h : s.pindex = s.depth
    · rw [colorStep_full hl h]
      exact colorStep_full hl h
    · rw [colorStep_register hl h]
      exact colorStep_found (by simpa using plookup_append _ _ s.pindex hl)
  · rw [colorStep_found hl]
    exact colorStep_found hl

/-- Witness for C8: the background color of a fresh 1×1 image is registered
at index 0; registering it again returns 0 and changes nothing. -/
theorem color_idempotent_witness :
    colorStep (0, 0, 0, 0) (initState 1 1 1 none) = (0, initState 1 1 1 none) :=
  (color_idempotent (initState 1 1 1 none) (0, 0, 0, 0)).1 0 (by decide)

/-! ## C9 — unresolvable color names fail locally -/

/-- C9: when the external color parser cannot resolve a textual color
(parser result `none`), `color` fails with the unrecognized-color error and
the state — palette and buffer — is exactly the input state; the same holds
for an in-bounds `setPixel` with such a name, so nothing is deferred to
`getBuffer` time. -/
theorem invalid_color_name (s : PNGState) (x y : Int)
    (hx : 0 ≤ x) (hy : 0 ≤ y) (hw : x < (s.width : Int)) (hh : y < (s.height : Int)) :
    colorNamed none s = (Except.error "invalid color", s) ∧
    setPixelNamed x y none s = (Except.error "invalid color", s) := by
  constructor
  · rfl
  · rw [setPixelNamed, if_neg (by omega)]
    rfl

/-- Witness for C9: `setPixel(0, 0, badName)` on a 2×2 image errors and
leaves the state unchanged. -/
theorem invalid_color_name_witness :
    colorNamed none (initState 2 2 2 none) =
      (Except.error "invalid color", initState 2 2 2 none) ∧
    setPixelNamed 0 0 none (initState 2 2 2 none) =
      (Except.error "invalid color", initState 2 2 2 none) :=
  invalid_color_name (initState 2 2 2 none) 0 0 (by decide) (by decide) (by decide) (by decide)

/-! ## C2 — the Adler-32 walk does not read through `index`'s mapping

`deflate` (line 155) reads `this.buffer[baseOffset * Math.floor(_i3 / 0xffff + 1) + _i3]`
with `baseOffset = idat_offs + 8 + 2 + 5`, i.e. it multiplies the whole base
offset by the block count, whereas `index` (line 86) adds
`idat_offs + 8 + 2` once and `5 * floor(i / 65535 + 1)`.  The two agree only
while `floor(i / 65535 + 1) = 1`, i.e. for logical positions `i < 65535`. -/

/-- C2 fails on the code: for the image `width = 1, height = 65536`, at the
logical position `i = y * (width + 1) + x + 1 = 65535` (pixel `(0, 32767)`),
the Adler-32 walk reads byte 65727 while the pixel-addressing formula
`index(0, 32767)` yields 65636; the walk and `setPixel` do not share one
logical-to-physical mapping.  (For `i < 65535` the two formulas agree, which
is why small images work.) -/
theorem adler_walk_address_mismatch :
    (32767 * ((Layout.mk 1 65536 8).width + 1) + 0 + 1 = 65535) ∧
    adlerAddr (Layout.mk 1 65536 8) 65535 = 65727 ∧
    pixelIndex (Layout.mk 1 65536 8) 0 32767 = 65636 ∧
    adlerAddr (Layout.mk 1 65536 8) 65535 ≠ pixelIndex (Layout.mk 1 65536 8) 0 32767 ∧
    (∀ i : Nat, i < 65535 →
      adlerAddr (Layout.mk 1 65536 8) i = pixelIndex (Layout.mk 1 65536 8) 0 0 - 1 + i) := by
  refine ⟨by decide, by decide, by decide, by decide, fun i hi => ?_⟩
  have h : i / 65535 = 0 := Nat.div_eq_of_lt hi
  simp [adlerAddr, pixelIndex, Layout.idat_offs, Layout.trns_offs, Layout.plte_offs,
    Layout.ihdr_offs, Layout.ihdr_size, Layout.plte_size, Layout.trns_size, Layout.mk, h]

/-! ## C3 — the stored-block headers the constructor writes -/

/-- C3 fails on the code: with `width = 1, height = 32768` the pixel region
is 65536 bytes, so by the claim the final (second) header must carry the
little-endian length `65536 - 65535 · 1 = 1` (bytes `01 00`, complement
`FE FF`).  The loop indeed writes two headers and flags the second as final,
but computes its size as `pix_size - (1 << 16) - 1 = -1`, so the length
field holds `FF FF` and the complement field `00 00`.  (Also, for
`pix_size = 131071` the loop writes 2 headers where the claim requires
`ceil(131071 / 65535) = 3`, and for `pix_size = 131072` it writes 3 headers
none of which is flagged final.) -/
theorem block_header_bug :
    (Layout.mk 1 32768 8).pix_size = 65536 ∧
    numHeaders 65536 = 2 ∧
    blockBits 65536 1 = CODE_SOH ∧
    blockSize 65536 1 = -1 ∧
    (65536 : Int) - 65535 * 1 = 1 ∧
    write2lsb [0, 0] 0 (blockSize 65536 1) = [255, 255] ∧
    write2lsb [0, 0] 0 (-(blockSize 65536 1) - 1) = [0, 0] ∧
    (numHeaders 131071 = 2 ∧ (131071 + 65535 - 1) / 65535 = 3) ∧
    (numHeaders 131072 = 3 ∧ blockBits 131072 0 = CODE_NUL ∧
     blockBits 131072 1 = CODE_NUL ∧ blockBits 131072 2 = CODE_NUL) := by
  decide

/-! ## C4 — the concrete 1 × 65536 scenario -/

/-- C4 fails on the code: for `width = 1, height = 65536` (pixel region
131072 bytes) the constructor's header loop runs for `i = 0, 1, 2` — three
stored-block headers, not two (131072 bytes cannot be framed by two
≤ 65535-byte stored blocks in any case) — and the pixel-addressing offset
`index(0, 65535) = 131177` (which lands after the *third* header) differs
from the address `(idat_offs + 15) * 3 + 131071 = 131359` that the
Adler-32 walk reads for that logical position. -/
theorem two_block_scenario_bug :
    (Layout.mk 1 65536 8).pix_size = 131072 ∧
    numHeaders (Layout.mk 1 65536 8).pix_size = 3 ∧
    (65535 * ((Layout.mk 1 65536 8).width + 1) + 0 + 1 = 131071) ∧
    pixelIndex (Layout.mk 1 65536 8) 0 65535 = 131177 ∧
    adlerAddr (Layout.mk 1 65536 8) 131071 = 131359 ∧
    adlerAddr (Layout.mk 1 65536 8) 131071 ≠ pixelIndex (Layout.mk 1 65536 8) 0 65535 := by
  decide

/-! ## C1 — the layout planner's sizes -/

/-- C1 fails as stated: the claim's `framed_size` uses
`ceil((65534 + pixel_region_size) / 65535)` — as a real-number ceiling,
`(65534 + p + 65534) / 65535` in integer division — but the constructor
(line 18) computes `Math.floor((0xfffe + pix_size) / 0xffff)`.  At
`width = height = capacity = 1` the pixel region is 2 bytes, the claim's
formula gives `2 + 2 + 5 * 2 + 4 = 18`, and the code computes
`2 + 2 + 5 * 1 + 4 = 13`. -/
theorem layout_formula_counterexample :
    (Layout.mk 1 1 1).pix_size = 2 ∧
    (Layout.mk 1 1 1).data_size = 13 ∧
    2 + (Layout.mk 1 1 1).pix_size +
      5 * ((65534 + (Layout.mk 1 1 1).pix_size + 65534) / 65535) + 4 = 18 ∧
    (Layout.mk 1 1 1).data_size ≠
      2 + (Layout.mk 1 1 1).pix_size +
        5 * ((65534 + (Layout.mk 1 1 1).pix_size + 65534) / 65535) + 4 := by
  decide

/-- C1, amended: `framed_size` uses the *floor*
`(65534 + pixel_region_size) / 65535` (equivalently
`ceil(pixel_region_size / 65535)` for a nonempty pixel region); with that
correction every equality of the claim holds: the chunk sizes are
`IHDR = 25`, `PLTE = 12 + 3·capacity`, `tRNS = 12 + capacity`,
`IDAT = 12 + framed_size`, `IEND = 12`, and the total buffer size is the
8-byte signature plus the sum of the five chunk sizes and is the length of
the buffer `getBuffer()` returns. -/
theorem layout_sizes (w h d : Nat) (bg : Option RGBA)
    (_hw : 1 ≤ w) (_hh : 1 ≤ h) (hd : 1 ≤ d) :
    (Layout.mk w h d).pix_size = h * (w + 1) ∧
    (Layout.mk w h d).data_size =
      2 + (Layout.mk w h d).pix_size +
        5 * ((65534 + (Layout.mk w h d).pix_size) / 65535) + 4 ∧
    ((65534 + (Layout.mk w h d).pix_size) / 65535) =
      ((Layout.mk w h d).pix_size + 65535 - 1) / 65535 ∧
    (Layout.mk w h d).ihdr_size = 25 ∧
    (Layout.mk w h d).plte_size = 12 + 3 * d ∧
    (Layout.mk w h d).trns_size = 12 + d ∧
    (Layout.mk w h d).idat_size = 12 + (Layout.mk w h d).data_size ∧
    (Layout.mk w h d).iend_size = 12 ∧
    (Layout.mk w h d).buffer_size =
      (Layout.mk w h d).ihdr_size + (Layout.mk w h d).plte_size +
        (Layout.mk w h d).trns_size + (Layout.mk w h d).idat_size +
        (Layout.mk w h d).iend_size ∧
    (getBuffer (initState w h d bg)).1.length = 8 + (Layout.mk w h d).buffer_size := by
  refine ⟨rfl, rfl, by omega, rfl, by simp only [Layout.plte_size]; try omega, by
    simp only [Layout.trns_size]; try omega, by simp only [Layout.idat_size]; try omega, rfl, by
    simp only [Layout.buffer_size, Layout.iend_offs, Layout.idat_offs, Layout.trns_offs,
      Layout.plte_offs, Layout.ihdr_offs, Layout.ihdr_size, Layout.plte_size,
      Layout.trns_size, Layout.idat_size, Layout.iend_size]; try omega, ?_⟩
  have hdd : (if d = 0 then 8 else d) = d := by rw [if_neg (by omega)]
  rw [getBuffer]
  simp only [deflateState, List.length_append]
  rw [length_deflateBuf, length_initStateBuffer, hdd]
  rfl

/-- Witness for C1 (amended): the 2×2, capacity-2 image. -/
theorem layout_sizes_witness :
    (Layout.mk 2 2 2).buffer_size =
      (Layout.mk 2 2 2).ihdr_size + (Layout.mk 2 2 2).plte_size +
        (Layout.mk 2 2 2).trns_size + (Layout.mk 2 2 2).idat_size +
        (Layout.mk 2 2 2).iend_size ∧
    (getBuffer (initState 2 2 2 none)).1.length = 8 + (Layout.mk 2 2 2).buffer_size :=
  ⟨((layout_sizes 2 2 2 none (by decide) (by decide) (by decide)).2.2.2.2.2.2.2.2).1,
   ((layout_sizes 2 2 2 none (by decide) (by decide) (by decide)).2.2.2.2.2.2.2.2).2⟩

/-! ## Layout arithmetic -/

theorem plte_offs_eq (L : Layout) : L.plte_offs = 25 := rfl

theorem trns_offs_eq (L : Layout) : L.trns_offs = 37 + 3 * L.depth := by
  simp only [Layout.trns_offs, Layout.plte_offs, Layout.ihdr_offs, Layout.ihdr_size,
    Layout.plte_size]
  omega

theorem idat_offs_eq (L : Layout) : L.idat_offs = 49 + 4 * L.depth := by
  simp only [Layout.idat_offs, trns_offs_eq, Layout.trns_size]
  omega

theorem iend_offs_eq (L : Layout) : L.iend_offs = 61 + 4 * L.depth + L.data_size := by
  simp only [Layout.iend_offs, idat_offs_eq, Layout.idat_size]
  omega

theorem buffer_size_eq (L : Layout) : L.buffer_size = 73 + 4 * L.depth + L.data_size := by
  simp only [Layout.buffer_size, iend_offs_eq, Layout.iend_size]
  omega

theorem data_size_ge (L : Layout) : 6 ≤ L.data_size := by
  simp only [Layout.data_size]
  omega

/-! ## The deflate write set

`deflate` stores bytes only at the 4-byte Adler-32 trailer and the five
4-byte CRC fields. -/

def DeflateWrites (L : Layout) (j : Nat) : Prop :=
  (L.idat_offs + L.idat_size - 8 ≤ j ∧ j < L.idat_offs + L.idat_size - 4) ∨
  (L.ihdr_offs + L.ihdr_size - 4 ≤ j ∧ j < L.ihdr_offs + L.ihdr_size) ∨
  (L.plte_offs + L.plte_size - 4 ≤ j ∧ j < L.plte_offs + L.plte_size) ∨
  (L.trns_offs + L.trns_size - 4 ≤ j ∧ j < L.trns_offs + L.trns_size) ∨
  (L.idat_offs + L.idat_size - 4 ≤ j ∧ j < L.idat_offs + L.idat_size) ∨
  (L.iend_offs + L.iend_size - 4 ≤ j ∧ j < L.iend_offs + L.iend_size)

instance (L : Layout) (j : Nat) : Decidable (DeflateWrites L j) := by
  unfold DeflateWrites; infer_instance

/-- Bytes outside the Adler-32 trailer and the five CRC fields are
untouched by `deflate`. -/
theorem deflateBuf_getElem?_ne (L : Layout) (b : List Nat) {j : Nat}
    (h : ¬DeflateWrites L j) : (deflateBuf L b)[j]? = b[j]? := by
  unfold DeflateWrites at h
  push_neg at h
  obtain ⟨h1, h2, h3, h4, h5, h6⟩ := h
  have e1 : L.ihdr_size = 25 := rfl
  have e2 : L.iend_size = 12 := rfl
  have e3 : L.plte_size = 12 + 3 * L.depth := by simp only [Layout.plte_size]; omega
  have e4 : L.trns_size = 12 + L.depth := by simp only [Layout.trns_size]; omega
  have e5 : L.idat_size = 12 + L.data_size := by simp only [Layout.idat_size]; omega
  have e6 := data_size_ge L
  have e7 := plte_offs_eq L
  have e8 := trns_offs_eq L
  have e9 := idat_offs_eq L
  have e10 := iend_offs_eq L
  have e11 : L.ihdr_offs = 0 := rfl
  rw [deflateBuf, crc32, write4_getElem?_ne _ _ _ (by omega)]
  rw [crc32, write4_getElem?_ne _ _ _ (by omega)]
  rw [crc32, write4_getElem?_ne _ _ _ (by omega)]
  rw [crc32, write4_getElem?_ne _ _ _ (by omega)]
  rw [crc32, write4_getElem?_ne _ _ _ (by omega)]
  rw [writeAdler, write4_getElem?_ne _ _ _ (by omega)]

/-! ## The reachability invariant -/

/-- The background color the constructor registers (lines 79–80). -/
def bgColor (bg : Option RGBA) : RGBA := bg.getD (0, 0, 0, 0)

/-- Invariant of every reachable state: the parameters are as constructed,
the buffer has the planned size, `pindex` is the palette's cardinality and
stays within `1 .. depth`, the background key is registered at index 0, no
other key maps to index 0, and palette slot 0 of the PLTE and tRNS chunk
bodies still holds the background components. -/
structure Inv (w h d : Nat) (bg : Option RGBA) (s : PNGState) : Prop where
  width_eq : s.width = w
  height_eq : s.height = h
  depth_eq : s.depth = if d = 0 then 8 else d
  buf_len : s.buffer.length = s.layout.buffer_size
  pindex_eq : s.pindex = s.palette.length
  pindex_pos : 1 ≤ s.pindex
  pindex_le : s.pindex ≤ s.depth
  bg_zero : plookup s.palette (packColor (bgColor bg)) = some 0
  zero_unique : ∀ kv ∈ s.palette, kv.2 = 0 → kv.1 = packColor (bgColor bg)
  plte_r : s.buffer[s.layout.plte_offs + 8]? = some ((bgColor bg).1 % 256)
  plte_g : s.buffer[s.layout.plte_offs + 9]? = some ((bgColor bg).2.1 % 256)
  plte_b : s.buffer[s.layout.plte_offs + 10]? = some ((bgColor bg).2.2.1 % 256)
  trns_a : s.buffer[s.layout.trns_offs + 8]? = some ((bgColor bg).2.2.2 % 256)

theorem Inv.depth_pos {w h d bg s} (inv : Inv w h d bg s) : 1 ≤ s.depth := by
  rw [inv.depth_eq]; split <;> omega

/-- Appending does not disturb an existing binding. -/
theorem plookup_append_left (pal l : List (Nat × Nat)) (k v : Nat)
    (h : plookup pal k = some v) : plookup (pal ++ l) k = some v := by
  induction pal with
  | nil => simp [plookup] at h
  | cons kv rest ih =>
    rw [List.cons_append, plookup]
    rw [plookup] at h
    by_cases hk : kv.1 = k
    · simpa [hk] using h
    · simp only [hk, if_false] at h ⊢
      exact ih h

theorem inv_init (w h d : Nat) (bg : Option RGBA) : Inv w h d bg (initState w h d bg) := by
  have hD : 1 ≤ (if d = 0 then 8 else d) := by split <;> omega
  have hreg := colorStep_register
    (s := ⟨w, h, if d = 0 then 8 else d,
           initBuffer (Layout.mk w h (if d = 0 then 8 else d)), [], 0⟩)
    (c := bgColor bg) (by simp [plookup]) (by simp only [PNGState.pindex, PNGState.depth]; omega)
  have hcal : initState w h d bg =
      (colorStep (bgColor bg)
        ⟨w, h, if d = 0 then 8 else d,
         initBuffer (Layout.mk w h (if d = 0 then 8 else d)), [], 0⟩).2 := rfl
  rw [hcal, hreg]
  have hlen0 := length_initBuffer (Layout.mk w h (if d = 0 then 8 else d))
  have hDS := data_size_ge (Layout.mk w h (if d = 0 then 8 else d))
  have hbs := buffer_size_eq (Layout.mk w h (if d = 0 then 8 else d))
  have hto := trns_offs_eq (Layout.mk w h (if d = 0 then 8 else d))
  have hpo := plte_offs_eq (Layout.mk w h (if d = 0 then 8 else d))
  refine ⟨rfl, rfl, rfl, ?_, ?_, ?_, ?_, ?_, ?_, ?_, ?_, ?_, ?_⟩
  · show (bufSet (bufSet (bufSet (bufSet _ _ _) _ _) _ _) _ _).length = _
    simp only [length_bufSet, hlen0]
    rfl
  · rfl
  · exact Nat.le_refl 1
  · simpa using hD
  · show plookup ([] ++ [(packColor (bgColor bg), 0)]) (packColor (bgColor bg)) = some 0
    simp [plookup]
  · intro kv hkv _
    simp only [PNGState.palette, List.nil_append, List.mem_singleton] at hkv
    rw [hkv]
  · show (bufSet (bufSet (bufSet (bufSet _ (_ + 8 + 3 * 0 + 0) _) (_ + 8 + 3 * 0 + 1) _)
      (_ + 8 + 3 * 0 + 2) _) _ _)[_]? = _
    rw [bufSet_getElem?_ne _ _ (by simp only [PNGState.layout]; omega),
      bufSet_getElem?_ne _ _ (by simp only [PNGState.layout]; omega),
      bufSet_getElem?_ne _ _ (by simp only [PNGState.layout]; omega)]
    have he : ∀ P : Nat, P + 8 + 3 * 0 + 0 = P + 8 := fun _ => by omega
    rw [he]
    exact bufSet_getElem?_self _ _ (by simp only [PNGState.layout, hlen0]; omega)
  · show (bufSet (bufSet (bufSet (bufSet _ (_ + 8 + 3 * 0 + 0) _) (_ + 8 + 3 * 0 + 1) _)
      (_ + 8 + 3 * 0 + 2) _) _ _)[_]? = _
    rw [bufSet_getElem?_ne _ _ (by simp only [PNGState.layout]; omega),
      bufSet_getElem?_ne _ _ (by simp only [PNGState.layout]; omega)]
    have he : ∀ P : Nat, P + 8 + 3 * 0 + 1 = P + 9 := fun _ => by omega
    rw [he]
    exact bufSet_getElem?_self _ _ (by simp only [length_bufSet, PNGState.layout, hlen0]; omega)
  · show (bufSet (bufSet (bufSet (bufSet _ (_ + 8 + 3 * 0 + 0) _) (_ + 8 + 3 * 0 + 1) _)
      (_ + 8 + 3 * 0 + 2) _) _ _)[_]? = _
    rw [bufSet_getElem?_ne _ _ (by simp only [PNGState.layout]; omega)]
    have he : ∀ P : Nat, P + 8 + 3 * 0 + 2 = P + 10 := fun _ => by omega
    rw [he]
    exact bufSet_getElem?_self _ _ (by simp only [length_bufSet, PNGState.layout, hlen0]; omega)
  · show (bufSet (bufSet (bufSet (bufSet _ (_ + 8 + 3 * 0 + 0) _) (_ + 8 + 3 * 0 + 1) _)
      (_ + 8 + 3 * 0 + 2) _) (_ + 8 + 0) _)[_]? = _
    exact bufSet_getElem?_self _ _ (by simp only [length_bufSet, PNGState.layout, hlen0]; omega)

theorem inv_colorStep {w h d : Nat} {bg : Option RGBA} {s : PNGState}
    (inv : Inv w h d bg s) (c : RGBA) : Inv w h d bg (colorStep c s).2 := by
  rcases hl : plookup s.palette (packColor c) with _ | i
  · by_cases hf : s.pindex = s.depth
    · rw [colorStep_full hl hf]; exact inv
    · rw [colorStep_register hl hf]
      have hD := inv.depth_pos
      have hpos := inv.pindex_pos
      have hlt : s.pindex < s.depth := Nat.lt_of_le_of_ne inv.pindex_le hf
      have hpo := plte_offs_eq s.layout
      have hto := trns_offs_eq s.layout
      have hdepth : s.layout.depth = s.depth := rfl
      have hbs := buffer_size_eq s.layout
      have hDS := data_size_ge s.layout
      refine ⟨inv.width_eq, inv.height_eq, inv.depth_eq, ?_, ?_, ?_, ?_, ?_, ?_, ?_, ?_, ?_, ?_⟩
      · show (bufSet (bufSet (bufSet (bufSet s.buffer _ _) _ _) _ _) _ _).length =
          s.layout.buffer_size
        simp only [length_bufSet]
        exact inv.buf_len
      · show s.pindex + 1 = (s.palette ++ [(packColor c, s.pindex)]).length
        simp [inv.pindex_eq]
      · show 1 ≤ s.pindex + 1
        omega
      · show s.pindex + 1 ≤ s.depth
        omega
      · show plookup (s.palette ++ [(packColor c, s.pindex)]) (packColor (bgColor bg)) = some 0
        exact plookup_append_left _ _ _ _ inv.bg_zero
      · intro kv hkv h0
        simp only [PNGState.palette, List.mem_append, List.mem_singleton] at hkv
        rcases hkv with hkv | hkv
        · exact inv.zero_unique kv hkv h0
        · rw [hkv] at h0
          simp only at h0
          omega
      · show (bufSet (bufSet (bufSet (bufSet s.buffer
            (s.layout.plte_offs + 8 + 3 * s.pindex + 0) _)
            (s.layout.plte_offs + 8 + 3 * s.pindex + 1) _)
            (s.layout.plte_offs + 8 + 3 * s.pindex + 2) _)
            (s.layout.trns_offs + 8 + s.pindex) _)[s.layout.plte_offs + 8]? = _
        rw [bufSet_getElem?_ne _ _ (by omega), bufSet_getElem?_ne _ _ (by omega),
          bufSet_getElem?_ne _ _ (by omega), bufSet_getElem?_ne _ _ (by omega)]
        exact inv.plte_r
      · show (bufSet (bufSet (bufSet (bufSet s.buffer
            (s.layout.plte_offs + 8 + 3 * s.pindex + 0) _)
            (s.layout.plte_offs + 8 + 3 * s.pindex + 1) _)
            (s.layout.plte_offs + 8 + 3 * s.pindex + 2) _)
            (s.layout.trns_offs + 8 + s.pindex) _)[s.layout.plte_offs + 9]? = _
        rw [bufSet_getElem?_ne _ _ (by omega), bufSet_getElem?_ne _ _ (by omega),
          bufSet_getElem?_ne _ _ (by omega), bufSet_getElem?_ne _ _ (by omega)]
        exact inv.plte_g
      · show (bufSet (bufSet (bufSet (bufSet s.buffer
            (s.layout.plte_offs + 8 + 3 * s.pindex + 0) _)
            (s.layout.plte_offs + 8 + 3 * s.pindex + 1) _)
            (s.layout.plte_offs + 8 + 3 * s.pindex + 2) _)
            (s.layout.trns_offs + 8 + s.pindex) _)[s.layout.plte_offs + 10]? = _
        rw [bufSet_getElem?_ne _ _ (by omega), bufSet_getElem?_ne _ _ (by omega),
          bufSet_getElem?_ne _ _ (by omega), bufSet_getElem?_ne _ _ (by omega)]
        exact inv.plte_b
      · show (bufSet (bufSet (bufSet (bufSet s.buffer
            (s.layout.plte_offs + 8 + 3 * s.pindex + 0) _)
            (s.layout.plte_offs + 8 + 3 * s.pindex + 1) _)
            (s.layout.plte_offs + 8 + 3 * s.pindex + 2) _)
            (s.layout.trns_offs + 8 + s.pindex) _)[s.layout.trns_offs + 8]? = _
        rw [bufSet_getElem?_ne _ _ (by omega), bufSet_getElem?_ne _ _ (by omega),
          bufSet_getElem?_ne _ _ (by omega), bufSet_getElem?_ne _ _ (by omega)]
        exact inv.trns_a
  · rw [colorStep_found hl]; exact inv

theorem inv_setPixel {w h d : Nat} {bg : Option RGBA} {s : PNGState}
    (inv : Inv w h d bg s) (x y : Int) (c : RGBA) : Inv w h d bg (setPixel x y c s) := by
  rw [setPixel]
  split
  · exact inv
  · rcases he : colorStep c s with ⟨i, s'⟩
    have inv' : Inv w h d bg s' := by
      have h2 := inv_colorStep inv c
      rwa [he] at h2
    simp only [he]
    have hlay : s'.layout = s.layout := by
      simp only [PNGState.layout, inv'.width_eq, inv.width_eq, inv'.height_eq, inv.height_eq,
        inv'.depth_eq, inv.depth_eq]
    have hD := inv.depth_pos
    have hdepth : s.layout.depth = s.depth := rfl
    have hpo := plte_offs_eq s.layout
    have hto := trns_offs_eq s.layout
    have hio := idat_offs_eq s.layout
    have hpi : ∀ n : Nat,
        s.layout.idat_offs + 15 ≤ s.layout.idat_offs + 8 + 2 + 5 * (n / 65535 + 1) + n :=
      fun n => by omega
    have hpi' := hpi (y.toNat * (s.layout.width + 1) + x.toNat + 1)
    refine ⟨inv'.width_eq, inv'.height_eq, inv'.depth_eq, ?_, inv'.pindex_eq,
      inv'.pindex_pos, inv'.pindex_le, inv'.bg_zero, inv'.zero_unique, ?_, ?_, ?_, ?_⟩
    · show (bufSet s'.buffer _ _).length = s'.layout.buffer_size
      rw [length_bufSet]
      exact inv'.buf_len
    · show (bufSet s'.buffer (pixelIndex s.layout x.toNat y.toNat) i)[s'.layout.plte_offs + 8]? = _
      rw [bufSet_getElem?_ne _ _ (by rw [hlay]; simp only [pixelIndex]; omega)]
      exact inv'.plte_r
    · show (bufSet s'.buffer (pixelIndex s.layout x.toNat y.toNat) i)[s'.layout.plte_offs + 9]? = _
      rw [bufSet_getElem?_ne _ _ (by rw [hlay]; simp only [pixelIndex]; omega)]
      exact inv'.plte_g
    · show (bufSet s'.buffer (pixelIndex s.layout x.toNat y.toNat) i)[s'.layout.plte_offs + 10]? = _
      rw [bufSet_getElem?_ne _ _ (by rw [hlay]; simp only [pixelIndex]; omega)]
      exact inv'.plte_b
    · show (bufSet s'.buffer (pixelIndex s.layout x.toNat y.toNat) i)[s'.layout.trns_offs + 8]? = _
      rw [bufSet_getElem?_ne _ _ (by rw [hlay]; simp only [pixelIndex]; omega)]
      exact inv'.trns_a

theorem deflateState_width (s : PNGState) : (deflateState s).width = s.width := by
  cases s; rfl
theorem deflateState_height (s : PNGState) : (deflateState s).height = s.height := by
  cases s; rfl
theorem deflateState_depth (s : PNGState) : (deflateState s).depth = s.depth := by
  cases s; rfl
theorem deflateState_palette (s : PNGState) : (deflateState s).palette = s.palette := by
  cases s; rfl
theorem deflateState_pindex (s : PNGState) : (deflateState s).pindex = s.pindex := by
  cases s; rfl
theorem deflateState_layout (s : PNGState) : (deflateState s).layout = s.layout := by
  simp [deflateState, PNGState.layout]
theorem deflateState_buffer (s : PNGState) :
    (deflateState s).buffer = deflateBuf s.layout s.buffer := by
  simp [deflateState]

theorem inv_deflateState {w h d : Nat} {bg : Option RGBA} {s : PNGState}
    (inv : Inv w h d bg s) : Inv w h d bg (deflateState s) := by
  have hD := inv.depth_pos
  have hdepth : s.layout.depth = s.depth := rfl
  have hpo := plte_offs_eq s.layout
  have hto := trns_offs_eq s.layout
  have hio := idat_offs_eq s.layout
  have hie := iend_offs_eq s.layout
  have hDS := data_size_ge s.layout
  have e1 : s.layout.ihdr_size = 25 := rfl
  have e2 : s.layout.iend_size = 12 := rfl
  have e3 : s.layout.plte_size = 12 + 3 * s.layout.depth := by
    simp only [Layout.plte_size]; omega
  have e4 : s.layout.trns_size = 12 + s.layout.depth := by
    simp only [Layout.trns_size]; omega
  have e5 : s.layout.idat_size = 12 + s.layout.data_size := by
    simp only [Layout.idat_size]; omega
  have e6 : s.layout.ihdr_offs = 0 := rfl
  refine ⟨?_, ?_, ?_, ?_, ?_, ?_, ?_, ?_, ?_, ?_, ?_, ?_, ?_⟩
  · rw [deflateState_width]; exact inv.width_eq
  · rw [deflateState_height]; exact inv.height_eq
  · rw [deflateState_depth]; exact inv.depth_eq
  · rw [deflateState_buffer, deflateState_layout, length_deflateBuf]; exact inv.buf_len
  · rw [deflateState_pindex, deflateState_palette]; exact inv.pindex_eq
  · rw [deflateState_pindex]; exact inv.pindex_pos
  · rw [deflateState_pindex, deflateState_depth]; exact inv.pindex_le
  · rw [deflateState_palette]; exact inv.bg_zero
  · rw [deflateState_palette]; exact inv.zero_unique
  · rw [deflateState_buffer, deflateState_layout,
      deflateBuf_getElem?_ne _ _ (by unfold DeflateWrites; omega)]
    exact inv.plte_r
  · rw [deflateState_buffer, deflateState_layout,
      deflateBuf_getElem?_ne _ _ (by unfold DeflateWrites; omega)]
    exact inv.plte_g
  · rw [deflateState_buffer, deflateState_layout,
      deflateBuf_getElem?_ne _ _ (by unfold DeflateWrites; omega)]
    exact inv.plte_b
  · rw [deflateState_buffer, deflateState_layout,
      deflateBuf_getElem?_ne _ _ (by unfold DeflateWrites; omega)]
    exact inv.trns_a

theorem inv_colorNamed {w h d : Nat} {bg : Option RGBA} {s : PNGState}
    (inv : Inv w h d bg s) (parsed : Option RGBA) :
    Inv w h d bg (colorNamed parsed s).2 := by
  cases parsed with
  | none => exact inv
  | some c =>
    rw [colorNamed]
    rcases he : colorStep c s with ⟨i, s'⟩
    have h2 := inv_colorStep inv c
    rw [he] at h2
    exact h2

theorem inv_setPixelNamed {w h d : Nat} {bg : Option RGBA} {s : PNGState}
    (inv : Inv w h d bg s) (x y : Int) (parsed : Option RGBA) :
    Inv w h d bg (setPixelNamed x y parsed s).2 := by
  rw [setPixelNamed]
  split
  · exact inv
  · cases parsed with
    | none => exact inv
    | some c =>
      have hsp := inv_setPixel inv x y c
      rw [setPixel] at hsp
      rw [if_neg (by assumption)] at hsp
      rcases he : colorStep c s with ⟨i, s'⟩
      rw [he] at hsp
      simp only [colorNamed, he]
      exact hsp

/-- Every reachable state satisfies the invariant. -/
theorem reachable_inv {w h d : Nat} {bg : Option RGBA} {s : PNGState}
    (hr : Reachable w h d bg s) : Inv w h d bg s := by
  induction hr with
  | init => exact inv_init w h d bg
  | color c hr ih => exact inv_colorStep ih c
  | colorName parsed hr ih => exact inv_colorNamed ih parsed
  | pixel x y c hr ih => exact inv_setPixel ih x y c
  | pixelName x y parsed hr ih => exact inv_setPixelNamed ih x y parsed
  | output hr ih => exact inv_deflateState ih

/-! ## C5 — registering past capacity degrades gracefully -/

/-- C5: in any reachable state whose palette already holds capacity-many
colors, registering one more distinct color raises no error (the call is
total), returns the fallback index 0 (`BUF.CODE_NUL`), and returns the
state unchanged — so the assigned index of every previously registered
color and the PLTE/tRNS chunk bytes are untouched.  (The accompanying
`console.warn` diagnostic is an I/O effect outside this embedding.) -/
theorem palette_overflow (w h d : Nat) (bg : Option RGBA) (s : PNGState) (c : RGBA)
    (hr : Reachable w h d bg s)
    (hfull : s.palette.length = s.depth)
    (hnew : plookup s.palette (packColor c) = none) :
    colorStep c s = (0, s) :=
  colorStep_full hnew ((reachable_inv hr).pindex_eq.trans hfull)

/-- Witness for C5: a capacity-1 image whose palette holds the background;
registering a second distinct color returns 0 and changes nothing. -/
theorem palette_overflow_witness :
    colorStep (9, 9, 9, 255) (initState 1 1 1 none) = (0, initState 1 1 1 none) :=
  palette_overflow 1 1 1 none (initState 1 1 1 none) (9, 9, 9, 255)
    Reachable.init (by decide) (by decide)

/-! ## C10 — palette index 0 is pinned to the background color -/

/-- C10: in every reachable state the background color registered by the
constructor (the supplied background, or fully transparent black when none
was given) is mapped to palette index 0, no other palette entry carries
index 0, and palette slot 0 of the PLTE chunk body and of the tRNS chunk
body still holds the background's components — no later `color`/`setPixel`
call reassigns them, so the capacity-overflow fallback index 0 aliases any
excess color to the background. -/
theorem background_index_zero (w h d : Nat) (bg : Option RGBA) (s : PNGState)
    (hr : Reachable w h d bg s) :
    plookup s.palette (packColor (bgColor bg)) = some 0 ∧
    (∀ kv ∈ s.palette, kv.2 = 0 → kv.1 = packColor (bgColor bg)) ∧
    s.buffer[s.layout.plte_offs + 8]? = some ((bgColor bg).1 % 256) ∧
    s.buffer[s.layout.plte_offs + 9]? = some ((bgColor bg).2.1 % 256) ∧
    s.buffer[s.layout.plte_offs + 10]? = some ((bgColor bg).2.2.1 % 256) ∧
    s.buffer[s.layout.trns_offs + 8]? = some ((bgColor bg).2.2.2 % 256) :=
  let inv := reachable_inv hr
  ⟨inv.bg_zero, inv.zero_unique, inv.plte_r, inv.plte_g, inv.plte_b, inv.trns_a⟩

/-- Witness for C10: a freshly constructed image with background
`(1, 2, 3, 4)` keeps it at palette index 0. -/
theorem background_index_zero_witness :
    plookup (initState 2 2 2 (some (1, 2, 3, 4))).palette
        (packColor (bgColor (some (1, 2, 3, 4)))) = some 0 ∧
    (∀ kv ∈ (initState 2 2 2 (some (1, 2, 3, 4))).palette,
        kv.2 = 0 → kv.1 = packColor (bgColor (some (1, 2, 3, 4)))) ∧
    (initState 2 2 2 (some (1, 2, 3, 4))).buffer[
        (initState 2 2 2 (some (1, 2, 3, 4))).layout.plte_offs + 8]? =
      some ((bgColor (some (1, 2, 3, 4))).1 % 256) ∧
    (initState 2 2 2 (some (1, 2, 3, 4))).buffer[
        (initState 2 2 2 (some (1, 2, 3, 4))).layout.plte_offs + 9]? =
      some ((bgColor (some (1, 2, 3, 4))).2.1 % 256) ∧
    (initState 2 2 2 (some (1, 2, 3, 4))).buffer[
        (initState 2 2 2 (some (1, 2, 3, 4))).layout.plte_offs + 10]? =
      some ((bgColor (some (1, 2, 3, 4))).2.2.1 % 256) ∧
    (initState 2 2 2 (some (1, 2, 3, 4))).buffer[
        (initState 2 2 2 (some (1, 2, 3, 4))).layout.trns_offs + 8]? =
      some ((bgColor (some (1, 2, 3, 4))).2.2.2 % 256) :=
  background_index_zero 2 2 2 (some (1, 2, 3, 4)) _ Reachable.init

/-! ## C7 groundwork: the Adler-32 walk -/

/-- The nested row/column walk visits the logical positions `0 .. pix_size - 1`
in order. -/
theorem adlerLoop_flatten (L : Layout) (b : List Nat) :
    adlerLoop L b =
      (List.range L.pix_size).foldl (fun a i => adlerStep b L i a) ⟨some (1, 0), NMAX⟩ := by
  rw [adlerLoop, Layout.pix_size]
  generalize (⟨some (1, 0), NMAX⟩ : AdlerAcc) = a
  induction L.height generalizing a with
  | zero => simp
  | succ n ih =>
    rw [List.range_succ (n := n), List.foldl_append, ih]
    have hr : (n + 1) * (L.width + 1) = n * (L.width + 1) + (L.width + 1) := by ring
    rw [hr, List.range_add (n * (L.width + 1)) (L.width + 1), List.foldl_append,
      List.foldl_map]
    simp only [List.foldl_cons, List.foldl_nil]

/-- The walk only looks at the bytes it reads. -/
theorem adlerFold_congr {b1 b2 : List Nat} {L : Layout} (l : List Nat) (a : AdlerAcc)
    (h : ∀ i ∈ l, b1[adlerAddr L i]? = b2[adlerAddr L i]?) :
    l.foldl (fun a i => adlerStep b1 L i a) a = l.foldl (fun a i => adlerStep b2 L i a) a := by
  induction l generalizing a with
  | nil => rfl
  | cons i is ih =>
    simp only [List.foldl_cons]
    rw [show adlerStep b1 L i a = adlerStep b2 L i a by
      unfold adlerStep; rw [h i (List.mem_cons_self i is)]]
    exact ih _ (fun j hj => h j (List.mem_cons_of_mem _ hj))

/-- An out-of-range read turns the accumulator into the `NaN` state. -/
theorem adlerStep_acc_none {b : List Nat} {L : Layout} {i : Nat} (a : AdlerAcc)
    (h : b[adlerAddr L i]? = none) : (adlerStep b L i a).acc = none := by
  unfold adlerStep
  rw [h]
  rcases a.acc with _ | ⟨s1, s2⟩ <;> by_cases hn : a.n - 1 = 0 <;> simp [hn]

/-- If the walk's final read is out of range, the final accumulator is the
`NaN` state no matter what the buffer holds. -/
theorem adlerFold_last_none {b : List Nat} {L : Layout} {p : Nat} (hp : 0 < p) (a : AdlerAcc)
    (h : b[adlerAddr L (p - 1)]? = none) :
    ((List.range p).foldl (fun a i => adlerStep b L i a) a).acc = none := by
  obtain ⟨q, rfl⟩ : ∃ q, p = q + 1 := ⟨p - 1, by omega⟩
  rw [List.range_succ, List.foldl_append]
  simp only [List.foldl_cons, List.foldl_nil]
  exact adlerStep_acc_none _ (by simpa using h)

theorem adlerValue_congr (L : Layout) {b1 b2 : List Nat}
    (h : ∀ i, i < L.pix_size → b1[adlerAddr L i]? = b2[adlerAddr L i]?) :
    adlerValue L b1 = adlerValue L b2 := by
  unfold adlerValue
  rw [adlerLoop_flatten, adlerLoop_flatten,
    adlerFold_congr _ _ (fun i hi => h i (List.mem_range.mp hi))]

theorem adlerValue_oob (L : Layout) (b : List Nat) (hp : 0 < L.pix_size)
    (h : b[adlerAddr L (L.pix_size - 1)]? = none) : adlerValue L b = 0 := by
  unfold adlerValue
  rw [adlerLoop_flatten, adlerFold_last_none hp _ h]

/-- For a pixel region of at most one stored block, every address the walk
reads lies in the data area, away from everything `deflate` writes. -/
theorem adlerAddr_small (L : Layout) (hD : 1 ≤ L.depth) {i : Nat}
    (hi : i < L.pix_size) (hp : L.pix_size ≤ 65535) :
    ¬DeflateWrites L (adlerAddr L i) := by
  have hdiv : i / 65535 = 0 := Nat.div_eq_of_lt (by omega)
  have hds : L.data_size = 2 + L.pix_size + 5 * ((65534 + L.pix_size) / 65535) + 4 := rfl
  have hio := idat_offs_eq L
  have hie := iend_offs_eq L
  have e1 : L.ihdr_size = 25 := rfl
  have e2 : L.iend_size = 12 := rfl
  have e3 : L.plte_size = 12 + 3 * L.depth := by simp only [Layout.plte_size]; omega
  have e4 : L.trns_size = 12 + L.depth := by simp only [Layout.trns_size]; omega
  have e5 : L.idat_size = 12 + L.data_size := by simp only [Layout.idat_size]; omega
  have e6 : L.ihdr_offs = 0 := rfl
  have e7 := plte_offs_eq L
  have e8 := trns_offs_eq L
  unfold DeflateWrites adlerAddr
  rw [hdiv]
  omega

/-- For a pixel region larger than one stored block, the walk's final read
is past the end of the buffer. -/
theorem adlerAddr_last_oob (L : Layout) (hD : 1 ≤ L.depth) (hp : 65536 ≤ L.pix_size) :
    L.buffer_size ≤ adlerAddr L (L.pix_size - 1) := by
  have hds : L.data_size = 2 + L.pix_size + 5 * ((65534 + L.pix_size) / 65535) + 4 := rfl
  have hbs := buffer_size_eq L
  have hio := idat_offs_eq L
  have hm : (L.pix_size - 1) / 65535 + 1 = (65534 + L.pix_size) / 65535 := by omega
  have hF2 : 2 ≤ (65534 + L.pix_size) / 65535 := by omega
  have hsplit : (L.idat_offs + 8 + 2 + 5) * ((65534 + L.pix_size) / 65535) =
      (L.idat_offs + 10) * ((65534 + L.pix_size) / 65535) +
        5 * ((65534 + L.pix_size) / 65535) := by ring
  have hmul2 : (L.idat_offs + 10) * 2 ≤
      (L.idat_offs + 10) * ((65534 + L.pix_size) / 65535) :=
    Nat.mul_le_mul_left _ hF2
  unfold adlerAddr
  rw [hm]
  omega

/-- `deflate` does not change the Adler-32 value of the buffer: for a
single-block pixel region the walk reads only data bytes `deflate` leaves
alone, and for a multi-block region the walk's final read is out of range
both before and after, so the value is 0 both times. -/
theorem adlerValue_deflateBuf (L : Layout) (b : List Nat) (hD : 1 ≤ L.depth)
    (hb : b.length = L.buffer_size) :
    adlerValue L (deflateBuf L b) = adlerValue L b := by
  rcases Nat.lt_or_ge L.pix_size 65536 with hp | hp
  · exact adlerValue_congr L (fun i hi =>
      deflateBuf_getElem?_ne L b (adlerAddr_small L hD hi (by omega)))
  · have hpos : 0 < L.pix_size := by omega
    have hoob := adlerAddr_last_oob L hD hp
    rw [adlerValue_oob L _ hpos (List.getElem?_eq_none_iff.mpr (by
        rw [length_deflateBuf]; omega)),
      adlerValue_oob L b hpos (List.getElem?_eq_none_iff.mpr (by omega))]

/-! ## C7 groundwork: CRC writes -/

theorem length_crc32 (b : List Nat) (offs size : Nat) :
    (crc32 b offs size).length = b.length := by
  simp [crc32, length_write4]

theorem crc32_getElem?_ne (b : List Nat) (offs size : Nat) {j : Nat} (h4 : 4 ≤ size)
    (h : j < offs + size - 4 ∨ offs + size ≤ j) : (crc32 b offs size)[j]? = b[j]? := by
  rw [crc32, write4_getElem?_ne _ _ _ (by omega)]

theorem region_congr {b1 b2 : List Nat} (start len : Nat)
    (h : ∀ k, k < len → b1[start + k]? = b2[start + k]?) :
    region b1 start len = region b2 start len := by
  unfold region
  apply List.map_congr_left
  intro k hk
  rw [h k (List.mem_range.mp hk)]

/-- A `crc32` that recomputes a checksum already in place is the identity:
the buffer agrees with `crc32 p offs size` on the CRC field and with `p` on
the checksummed region. -/
theorem crc32_eq_self {b p : List Nat} {offs size : Nat} (h4 : 8 ≤ size)
    (hplen : offs + size ≤ p.length)
    (hwin : ∀ j, offs + size - 4 ≤ j → j < offs + size →
      b[j]? = (crc32 p offs size)[j]?)
    (hreg : ∀ k, k < size - 8 → b[offs + 4 + k]? = p[offs + 4 + k]?) :
    crc32 b offs size = b := by
  have hreg' : region b (offs + 4) (size - 8) = region p (offs + 4) (size - 8) :=
    region_congr _ _ hreg
  rw [crc32, hreg']
  have hbytes := write4_getElem?_eq p (offs + size - 4)
    (crcValue (region p (offs + 4) (size - 8))) (by omega)
  refine write4_of_getElem? ?_ ?_ ?_ ?_
  · rw [hwin _ (by omega) (by omega), crc32]
    exact hbytes.1
  · rw [hwin _ (by omega) (by omega), crc32]
    exact hbytes.2.1
  · rw [hwin _ (by omega) (by omega), crc32]
    exact hbytes.2.2.1
  · rw [hwin _ (by omega) (by omega), crc32]
    exact hbytes.2.2.2

/-- A `writeAdler` that recomputes a trailer already in place is the
identity. -/
theorem writeAdler_eq_self {b p : List Nat} {L : Layout}
    (hplen : L.idat_offs + L.idat_size - 8 + 4 ≤ p.length)
    (hval : adlerValue L b = adlerValue L p)
    (hwin : ∀ j, L.idat_offs + L.idat_size - 8 ≤ j → j < L.idat_offs + L.idat_size - 8 + 4 →
      b[j]? = (writeAdler L p)[j]?) :
    writeAdler L b = b := by
  rw [writeAdler, hval]
  have hbytes := write4_getElem?_eq p (L.idat_offs + L.idat_size - 8)
    (adlerValue L p) hplen
  refine write4_of_getElem? ?_ ?_ ?_ ?_
  · rw [hwin _ (by omega) (by omega), writeAdler]
    exact hbytes.1
  · rw [hwin _ (by omega) (by omega), writeAdler]
    exact hbytes.2.1
  · rw [hwin _ (by omega) (by omega), writeAdler]
    exact hbytes.2.2.1
  · rw [hwin _ (by omega) (by omega), writeAdler]
    exact hbytes.2.2.2

theorem length_writeAdler (L : Layout) (b : List Nat) :
    (writeAdler L b).length = b.length := length_write4 ..

/- `crc32` and `writeAdler` are only reasoned about through the lemmas
above from here on; blocking their definitional unfolding keeps the
unifier from expanding checksum computations while matching buffers. -/
attribute [irreducible] crc32 writeAdler

/-- `deflate`'s Adler-32 write is the identity on an already-deflated
buffer. -/
theorem idem_adler (L : Layout) (hD : 1 ≤ L.depth) (b : List Nat)
    (hb : b.length = L.buffer_size) :
    writeAdler L (deflateBuf L b) = deflateBuf L b := by
  have e1 : L.ihdr_size = 25 := rfl
  have e2 : L.iend_size = 12 := rfl
  have e3 : L.plte_size = 12 + 3 * L.depth := by simp only [Layout.plte_size]; omega
  have e4 : L.trns_size = 12 + L.depth := by simp only [Layout.trns_size]; omega
  have e5 : L.idat_size = 12 + L.data_size := by simp only [Layout.idat_size]; omega
  have e6 : L.ihdr_offs = 0 := rfl
  have e7 := plte_offs_eq L
  have e8 := trns_offs_eq L
  have e9 := idat_offs_eq L
  have e10 := iend_offs_eq L
  have e11 := buffer_size_eq L
  have e12 := data_size_ge L
  have hb5 : deflateBuf L b =
      crc32 (crc32 (crc32 (crc32 (crc32 (writeAdler L b) L.ihdr_offs L.ihdr_size)
        L.plte_offs L.plte_size) L.trns_offs L.trns_size) L.idat_offs L.idat_size)
        L.iend_offs L.iend_size := rfl
  refine writeAdler_eq_self (p := b) (by omega) (adlerValue_deflateBuf L b hD hb) ?_
  intro j hj1 hj2
  rw [hb5, crc32_getElem?_ne _ _ _ (by omega) (by omega),
    crc32_getElem?_ne _ _ _ (by omega) (by omega),
    crc32_getElem?_ne _ _ _ (by omega) (by omega),
    crc32_getElem?_ne _ _ _ (by omega) (by omega),
    crc32_getElem?_ne _ _ _ (by omega) (by omega)]

/-- `deflate`'s IHDR checksum write is the identity on an already-deflated
buffer. -/
theorem idem_ihdr (L : Layout) (hD : 1 ≤ L.depth) (b : List Nat)
    (hb : b.length = L.buffer_size) :
    crc32 (deflateBuf L b) L.ihdr_offs L.ihdr_size = deflateBuf L b := by
  have e1 : L.ihdr_size = 25 := rfl
  have e2 : L.iend_size = 12 := rfl
  have e3 : L.plte_size = 12 + 3 * L.depth := by simp only [Layout.plte_size]; omega
  have e4 : L.trns_size = 12 + L.depth := by simp only [Layout.trns_size]; omega
  have e5 : L.idat_size = 12 + L.data_size := by simp only [Layout.idat_size]; omega
  have e6 : L.ihdr_offs = 0 := rfl
  have e7 := plte_offs_eq L
  have e8 := trns_offs_eq L
  have e9 := idat_offs_eq L
  have e10 := iend_offs_eq L
  have e11 := buffer_size_eq L
  have e12 := data_size_ge L
  have lenA : (writeAdler L b).length = b.length := length_writeAdler ..
  have hb5 : deflateBuf L b =
      crc32 (crc32 (crc32 (crc32 (crc32 (writeAdler L b) L.ihdr_offs L.ihdr_size)
        L.plte_offs L.plte_size) L.trns_offs L.trns_size) L.idat_offs L.idat_size)
        L.iend_offs L.iend_size := rfl
  refine crc32_eq_self (p := writeAdler L b) (by omega) (by omega) ?_ ?_
  · intro j hj1 hj2
    rw [hb5, crc32_getElem?_ne _ _ _ (by omega) (by omega),
      crc32_getElem?_ne _ _ _ (by omega) (by omega),
      crc32_getElem?_ne _ _ _ (by omega) (by omega),
      crc32_getElem?_ne _ _ _ (by omega) (by omega)]
  · intro k hk
    rw [hb5, crc32_getElem?_ne _ _ _ (by omega) (by omega),
      crc32_getElem?_ne _ _ _ (by omega) (by omega),
      crc32_getElem?_ne _ _ _ (by omega) (by omega),
      crc32_getElem?_ne _ _ _ (by omega) (by omega),
      crc32_getElem?_ne _ _ _ (by omega) (by omega)]

/-- `deflate`'s PLTE checksum write is the identity on an already-deflated
buffer. -/
theorem idem_plte (L : Layout) (hD : 1 ≤ L.depth) (b : List Nat)
    (hb : b.length = L.buffer_size) :
    crc32 (deflateBuf L b) L.plte_offs L.plte_size = deflateBuf L b := by
  have e1 : L.ihdr_size = 25 := rfl
  have e2 : L.iend_size = 12 := rfl
  have e3 : L.plte_size = 12 + 3 * L.depth := by simp only [Layout.plte_size]; omega
  have e4 : L.trns_size = 12 + L.depth := by simp only [Layout.trns_size]; omega
  have e5 : L.idat_size = 12 + L.data_size := by simp only [Layout.idat_size]; omega
  have e6 : L.ihdr_offs = 0 := rfl
  have e7 := plte_offs_eq L
  have e8 := trns_offs_eq L
  have e9 := idat_offs_eq L
  have e10 := iend_offs_eq L
  have e11 := buffer_size_eq L
  have e12 := data_size_ge L
  have lenA : (writeAdler L b).length = b.length := length_writeAdler ..
  have len1 : (crc32 (writeAdler L b) L.ihdr_offs L.ihdr_size).length = b.length := by
    rw [length_crc32, lenA]
  have hb5 : deflateBuf L b =
      crc32 (crc32 (crc32 (crc32 (crc32 (writeAdler L b) L.ihdr_offs L.ihdr_size)
        L.plte_offs L.plte_size) L.trns_offs L.trns_size) L.idat_offs L.idat_size)
        L.iend_offs L.iend_size := rfl
  refine crc32_eq_self (p := crc32 (writeAdler L b) L.ihdr_offs L.ihdr_size)
    (by omega) (by omega) ?_ ?_
  · intro j hj1 hj2
    rw [hb5, crc32_getElem?_ne _ _ _ (by omega) (by omega),
      crc32_getElem?_ne _ _ _ (by omega) (by omega),
      crc32_getElem?_ne _ _ _ (by omega) (by omega)]
  · intro k hk
    rw [hb5, crc32_getElem?_ne _ _ _ (by omega) (by omega),
      crc32_getElem?_ne _ _ _ (by omega) (by omega),
      crc32_getElem?_ne _ _ _ (by omega) (by omega),
      crc32_getElem?_ne _ _ _ (by omega) (by omega)]

/-- `deflate`'s tRNS checksum write is the identity on an already-deflated
buffer. -/
theorem idem_trns (L : Layout) (hD : 1 ≤ L.depth) (b : List Nat)
    (hb : b.length = L.buffer_size) :
    crc32 (deflateBuf L b) L.trns_offs L.trns_size = deflateBuf L b := by
  have e1 : L.ihdr_size = 25 := rfl
  have e2 : L.iend_size = 12 := rfl
  have e3 : L.plte_size = 12 + 3 * L.depth := by simp only [Layout.plte_size]; omega
  have e4 : L.trns_size = 12 + L.depth := by simp only [Layout.trns_size]; omega
  have e5 : L.idat_size = 12 + L.data_size := by simp only [Layout.idat_size]; omega
  have e6 : L.ihdr_offs = 0 := rfl
  have e7 := plte_offs_eq L
  have e8 := trns_offs_eq L
  have e9 := idat_offs_eq L
  have e10 := iend_offs_eq L
  have e11 := buffer_size_eq L
  have e12 := data_size_ge L
  have lenA : (writeAdler L b).length = b.length := length_writeAdler ..
  have len2 : (crc32 (crc32 (writeAdler L b) L.ihdr_offs L.ihdr_size)
      L.plte_offs L.plte_size).length = b.length := by
    rw [length_crc32, length_crc32, lenA]
  have hb5 : deflateBuf L b =
      crc32 (crc32 (crc32 (crc32 (crc32 (writeAdler L b) L.ihdr_offs L.ihdr_size)
        L.plte_offs L.plte_size) L.trns_offs L.trns_size) L.idat_offs L.idat_size)
        L.iend_offs L.iend_size := rfl
  refine crc32_eq_self
    (p := crc32 (crc32 (writeAdler L b) L.ihdr_offs L.ihdr_size) L.plte_offs L.plte_size)
    (by omega) (by omega) ?_ ?_
  · intro j hj1 hj2
    rw [hb5, crc32_getElem?_ne _ _ _ (by omega) (by omega),
      crc32_getElem?_ne _ _ _ (by omega) (by omega)]
  · intro k hk
    rw [hb5, crc32_getElem?_ne _ _ _ (by omega) (by omega),
      crc32_getElem?_ne _ _ _ (by omega) (by omega),
      crc32_getElem?_ne _ _ _ (by omega) (by omega)]

/-- `deflate`'s IDAT checksum write is the identity on an already-deflated
buffer. -/
theorem idem_idat (L : Layout) (hD : 1 ≤ L.depth) (b : List Nat)
    (hb : b.length = L.buffer_size) :
    crc32 (deflateBuf L b) L.idat_offs L.idat_size = deflateBuf L b := by
  have e1 : L.ihdr_size = 25 := rfl
  have e2 : L.iend_size = 12 := rfl
  have e3 : L.plte_size = 12 + 3 * L.depth := by simp only [Layout.plte_size]; omega
  have e4 : L.trns_size = 12 + L.depth := by simp only [Layout.trns_size]; omega
  have e5 : L.idat_size = 12 + L.data_size := by simp only [Layout.idat_size]; omega
  have e6 : L.ihdr_offs = 0 := rfl
  have e7 := plte_offs_eq L
  have e8 := trns_offs_eq L
  have e9 := idat_offs_eq L
  have e10 := iend_offs_eq L
  have e11 := buffer_size_eq L
  have e12 := data_size_ge L
  have lenA : (writeAdler L b).length = b.length := length_writeAdler ..
  have len3 : (crc32 (crc32 (crc32 (writeAdler L b) L.ihdr_offs L.ihdr_size)
      L.plte_offs L.plte_size) L.trns_offs L.trns_size).length = b.length := by
    rw [length_crc32, length_crc32, length_crc32, lenA]
  have hb5 : deflateBuf L b =
      crc32 (crc32 (crc32 (crc32 (crc32 (writeAdler L b) L.ihdr_offs L.ihdr_size)
        L.plte_offs L.plte_size) L.trns_offs L.trns_size) L.idat_offs L.idat_size)
        L.iend_offs L.iend_size := rfl
  refine crc32_eq_self
    (p := crc32 (crc32 (crc32 (writeAdler L b) L.ihdr_offs L.ihdr_size)
      L.plte_offs L.plte_size) L.trns_offs L.trns_size)
    (by omega) (by omega) ?_ ?_
  · intro j hj1 hj2
    rw [hb5, crc32_getElem?_ne _ _ _ (by omega) (by omega)]
  · intro k hk
    rw [hb5, crc32_getElem?_ne _ _ _ (by omega) (by omega),
      crc32_getElem?_ne _ _ _ (by omega) (by omega)]

/-- `deflate`'s IEND checksum write is the identity on an already-deflated
buffer. -/
theorem idem_iend (L : Layout) (_hD : 1 ≤ L.depth) (b : List Nat)
    (hb : b.length = L.buffer_size) :
    crc32 (deflateBuf L b) L.iend_offs L.iend_size = deflateBuf L b := by
  have e1 : L.ihdr_size = 25 := rfl
  have e2 : L.iend_size = 12 := rfl
  have e3 : L.plte_size = 12 + 3 * L.depth := by simp only [Layout.plte_size]; omega
  have e4 : L.trns_size = 12 + L.depth := by simp only [Layout.trns_size]; omega
  have e5 : L.idat_size = 12 + L.data_size := by simp only [Layout.idat_size]; omega
  have e6 : L.ihdr_offs = 0 := rfl
  have e7 := plte_offs_eq L
  have e8 := trns_offs_eq L
  have e9 := idat_offs_eq L
  have e10 := iend_offs_eq L
  have e11 := buffer_size_eq L
  have e12 := data_size_ge L
  have lenA : (writeAdler L b).length = b.length := length_writeAdler ..
  have len4 : (crc32 (crc32 (crc32 (crc32 (writeAdler L b) L.ihdr_offs L.ihdr_size)
      L.plte_offs L.plte_size) L.trns_offs L.trns_size) L.idat_offs L.idat_size).length =
      b.length := by
    rw [length_crc32, length_crc32, length_crc32, length_crc32, lenA]
  have hb5 : deflateBuf L b =
      crc32 (crc32 (crc32 (crc32 (crc32 (writeAdler L b) L.ihdr_offs L.ihdr_size)
        L.plte_offs L.plte_size) L.trns_offs L.trns_size) L.idat_offs L.idat_size)
        L.iend_offs L.iend_size := rfl
  refine crc32_eq_self
    (p := crc32 (crc32 (crc32 (crc32 (writeAdler L b) L.ihdr_offs L.ihdr_size)
      L.plte_offs L.plte_size) L.trns_offs L.trns_size) L.idat_offs L.idat_size)
    (by omega) (by omega) ?_ ?_
  · intro j hj1 hj2
    rw [hb5]
  · intro k hk
    rw [hb5, crc32_getElem?_ne _ _ _ (by omega) (by omega)]

/-- The heart of C7: running `deflate`'s buffer mutation twice is the same
as running it once. -/
theorem deflateBuf_idem (L : Layout) (hD : 1 ≤ L.depth) (b : List Nat)
    (hb : b.length = L.buffer_size) :
    deflateBuf L (deflateBuf L b) = deflateBuf L b := by
  have houter : deflateBuf L (deflateBuf L b) =
      crc32 (crc32 (crc32 (crc32 (crc32 (writeAdler L (deflateBuf L b))
        L.ihdr_offs L.ihdr_size) L.plte_offs L.plte_size) L.trns_offs L.trns_size)
        L.idat_offs L.idat_size) L.iend_offs L.iend_size := rfl
  rw [houter, idem_adler L hD b hb, idem_ihdr L hD b hb, idem_plte L hD b hb,
    idem_trns L hD b hb, idem_idat L hD b hb, idem_iend L hD b hb]

/-! ## C7 — `getBuffer` is idempotent -/

/-- C7: in any reachable state, calling `getBuffer()` twice in a row with no
mutating call in between returns byte-identical output; the Finalizer
mutates no palette state (mapping or next-index counter) and writes only
the 4-byte Adler-32 trailer and the five 4-byte CRC-32 fields of the
buffer.  (`getBase64()` is the same bytes run through the external Base64
encoder, so it is idempotent as well.) -/
theorem getBuffer_idempotent (w h d : Nat) (bg : Option RGBA) (s : PNGState)
    (hr : Reachable w h d bg s) :
    (getBuffer (getBuffer s).2).1 = (getBuffer s).1 ∧
    (getBuffer s).2.palette = s.palette ∧
    (getBuffer s).2.pindex = s.pindex ∧
    (∀ j, ¬DeflateWrites s.layout j → (getBuffer s).2.buffer[j]? = s.buffer[j]?) := by
  have inv := reachable_inv hr
  have hD := inv.depth_pos
  have hb := inv.buf_len
  have hg2 : ∀ t : PNGState, (getBuffer t).2 = deflateState t := fun _ => rfl
  have hg1 : ∀ t : PNGState, (getBuffer t).1 = PNG_HEAD ++ (deflateState t).buffer :=
    fun _ => rfl
  refine ⟨?_, ?_, ?_, ?_⟩
  · rw [hg1, hg1, hg2]
    have hbe : (deflateState (deflateState s)).buffer = (deflateState s).buffer := by
      rw [deflateState_buffer (deflateState s), deflateState_layout, deflateState_buffer s,
        deflateBuf_idem s.layout hD s.buffer hb]
    rw [hbe]
  · rw [hg2, deflateState_palette]
  · rw [hg2, deflateState_pindex]
  · intro j hj
    rw [hg2, deflateState_buffer]
    exact deflateBuf_getElem?_ne _ _ hj

/-- Witness for C7: on a freshly constructed 1×1 image, two `getBuffer()`
calls give the same bytes, and finalizing touches neither palette state nor
(for instance) buffer byte 0. -/
theorem getBuffer_idempotent_witness :
    (getBuffer (getBuffer (initState 1 1 1 none)).2).1 =
      (getBuffer (initState 1 1 1 none)).1 ∧
    (getBuffer (initState 1 1 1 none)).2.palette = (initState 1 1 1 none).palette ∧
    (getBuffer (initState 1 1 1 none)).2.buffer[0]? = (initState 1 1 1 none).buffer[0]? :=
  ⟨(getBuffer_idempotent 1 1 1 none _ Reachable.init).1,
   (getBuffer_idempotent 1 1 1 none _ Reachable.init).2.1,
   (getBuffer_idempotent 1 1 1 none _ Reachable.init).2.2.2 0 (by decide)⟩

end PNGlib
